import Mathlib

/-!
Verification of the irrigation controller (src/pour_manager/pour_manager.ino)
and the motor-board command protocol (src/rovers/rover-4-overseer/Motors.cpp).

Modelling conventions:
* Machine integers (uint32_t timestamps, uint16_t timeouts) are modelled as
  Nat, with `% UINT32_MOD` inserted exactly where the C arithmetic can wrap
  (deadline additions, `cur_time - last_motor_off_moment`).  Timeout
  bookkeeping inside a single wait never wraps because timeouts are uint16.
* The serial receive channel is a list of (arrival time, byte) pairs, read
  front to back; a byte is available once the clock has passed its arrival
  time.  `delay(ms)` advances the modelled clock.
* The busy-wait loops are written as fuel-indexed recursions that return
  `none` when the fuel runs out; adequacy lemmas show that enough fuel makes
  the result independent of fuel, so no behaviour is hidden in the fuel.
* The float arithmetic in the pour-duration rescaling is modelled as exact
  arithmetic followed by truncation toward zero (Nat floor division), and the
  float sine in the motor self test as the real sine.
-/

-- ## Constants of pour_manager.ino

def MEASURER_RANGE_LOW : Int := 315
def MEASURER_RANGE_HIGH : Int := 318
def MEASURER_ABS_LOW : Int := 240
def MEASURER_ABS_HIGH : Int := 650
def MEASURER_HIGH_MEANS_DRY : Bool := true
def MAX_MOTOR_ON_TIME_S : Nat := 120
def IDLE_DURATION_S : Nat := 60
def PRE_POUR_DURATION_S : Nat := 180
def BASE_POUR_DURATION_S : Nat := 20
def POST_POUR_DURATION_S : Nat := 900
def DESIRED_POUR_CYCLE_S : Nat := 86400
def UINT32_MOD : Nat := 4294967296

-- ## Moisture reading (pour_manager.ino lines 125-172)

/-- Line-fault detection on the raw analog reading: raw value at or outside
the absolute plausible range `[MEASURER_ABS_LOW, MEASURER_ABS_HIGH]`
(`is_line_problem` in the source). -/
def is_line_problem (raw : Int) : Bool :=
  decide (raw ≤ MEASURER_ABS_LOW) || decide (raw ≥ MEASURER_ABS_HIGH)

/-- `get_humidity` fault path: the filtered sensor value (the capacitive
filter itself is an external library) is coerced to -1 when the raw reading
is flagged as a line fault; otherwise the filtered value is returned.
Display side effects are omitted. -/
def get_humidity (line_problem : Bool) (filtered : Int) : Int :=
  if line_problem then -1 else filtered

/-- Dryness predicate `is_low_rh`, parameterised by the polarity constant
`MEASURER_HIGH_MEANS_DRY` (the source reads the global constant). -/
def is_low_rh (high_means_dry : Bool) (cur_hum : Int) : Bool :=
  (cur_hum != -1) &&
    ((high_means_dry && decide (cur_hum > MEASURER_RANGE_HIGH)) ||
     (!high_means_dry && decide (cur_hum < MEASURER_RANGE_LOW)))

-- ## Wraparound comparison and the state machine (pour_manager.ino lines 188-273)

/-- `ui32_gte(a, b)` from the source: `(a >= b) || ((a < b) && (b - a >= 0x40000000))`,
on uint32 values modelled as Nat below `UINT32_MOD`. -/
def ui32_gte (a b : Nat) : Bool :=
  decide (a ≥ b) || (decide (a < b) && decide (b - a ≥ 0x40000000))

def STATE_IDLE : Nat := 0
def STATE_PRE_POUR_STAGING : Nat := 1
def STATE_POURING : Nat := 2

/-- The mutable globals of the sketch that the `loop` body reads and writes. -/
structure PourState where
  state : Nat
  next_state_update_time : Nat
  last_motor_off_moment : Nat
  pour_duration_ms : Nat
  motor_is_on : Bool
deriving DecidableEq

/-- Pour-duration rescaling (pour_manager.ino line 255-256):
`pour_duration_ms * ((float)(DESIRED_POUR_CYCLE_S*1000) / elapsed)`, truncated
to uint32 on assignment, then `min` with the motor-on ceiling.  The float
product is modelled as exact arithmetic with truncation toward zero, which is
Nat floor division. -/
def pour_duration_update (prev elapsed : Nat) : Nat :=
  min (prev * (DESIRED_POUR_CYCLE_S * 1000) / elapsed) (MAX_MOTOR_ON_TIME_S * 1000)

/-- One execution of the state-machine portion of `loop()` (lines 241-270):
given the current millis value and the humidity reading of this tick, produce
the updated globals.  Serial printing and the motor relay's idempotence
bookkeeping are omitted; the motor state is the boolean `motor_is_on`. -/
def tick (st : PourState) (cur_time : Nat) (cur_hum : Int) : PourState :=
  if ui32_gte cur_time st.next_state_update_time then
    if st.state = STATE_IDLE then
      if is_low_rh MEASURER_HIGH_MEANS_DRY cur_hum then
        { st with state := STATE_PRE_POUR_STAGING,
                  next_state_update_time := (cur_time + PRE_POUR_DURATION_S * 1000) % UINT32_MOD }
      else
        { st with next_state_update_time := (cur_time + IDLE_DURATION_S * 1000) % UINT32_MOD }
    else if st.state = STATE_PRE_POUR_STAGING then
      if is_low_rh MEASURER_HIGH_MEANS_DRY cur_hum then
        let dur :=
          if st.last_motor_off_moment ≠ 0 then
            pour_duration_update st.pour_duration_ms
              ((cur_time + UINT32_MOD - st.last_motor_off_moment) % UINT32_MOD)
          else st.pour_duration_ms
        { st with state := STATE_POURING,
                  motor_is_on := true,
                  pour_duration_ms := dur,
                  next_state_update_time := (cur_time + dur) % UINT32_MOD }
      else
        { st with state := STATE_IDLE,
                  next_state_update_time := (cur_time + IDLE_DURATION_S * 1000) % UINT32_MOD }
    else if st.state = STATE_POURING then
      { st with motor_is_on := false,
                last_motor_off_moment := cur_time,
                state := STATE_IDLE,
                next_state_update_time := (cur_time + POST_POUR_DURATION_S * 1000) % UINT32_MOD }
    else st
  else st

-- ## Motor-board protocol (Motors.cpp)

def Motorboard_PrintHelpMaxTime_Ms : Nat := 4000

/-- `TimePerCharacter_Ms = 1000 / (Baud / 10) + 1` (Motors.cpp line 40). -/
def TimePerCharacter_Ms (baud : Nat) : Nat := 1000 / (baud / 10) + 1

/-- The 3-byte sliding window `char Chars[3]`; `c0` is `Chars[0]` (newest). -/
structure Window where
  c0 : Nat
  c1 : Nat
  c2 : Nat
deriving DecidableEq

/-- `char Chars[3] = ""` zero-initialises the window. -/
def initWindow : Window := ⟨0, 0, 0⟩

/-- The shift `Chars[2] = Chars[1]; Chars[1] = Chars[0]; Chars[0] = read()`. -/
def shiftWin (w : Window) (b : Nat) : Window := ⟨b, w.c0, w.c1⟩

/-- The test `Chars[2] == 10 && Chars[1] == 71 && Chars[0] == 10`
(newline, ASCII G, newline). -/
def sentinelMatch (w : Window) : Bool :=
  decide (w.c2 = 10) && decide (w.c1 = 71) && decide (w.c0 = 10)

/-- The receive channel: bytes with their arrival times, front to back. -/
abbrev Chan : Type := List (Nat × Nat)

/-- `SoftwareSerial_.available()`: the head byte has arrived by `now`. -/
def chanAvail (now : Nat) : Chan → Bool
  | [] => false
  | (t, _) :: _ => decide (t ≤ now)

/-- A channel whose bytes are all already queued at invocation time. -/
def chan0 (B : List Nat) : Chan := B.map (fun b => (0, b))

/-- `WaitForReadySignal` (Motors.cpp lines 135-170) as a fuel-indexed loop.
State: current clock `now`, the sliding window `w`, the unread channel `q`.
The loop guard is `now - start < timeout`; on a byte, the window is shifted
and compared to the sentinel; on a match the loop delays one inter-character
time and succeeds only if no byte is then available; every iteration ends
with `delay(tpc)`.  Returns the result, the clock at return, and the unread
rest of the channel; `none` means the fuel ran out before the loop did. -/
def wfrsAux (tpc timeout start : Nat) : Nat → Nat → Window → Chan → Option (Bool × Nat × Chan)
  | 0, _, _, _ => none
  | fuel + 1, now, w, q =>
    if now - start < timeout then
      match q with
      | (t, b) :: rest =>
        if t ≤ now then
          let w2 := shiftWin w b
          if sentinelMatch w2 then
            if chanAvail (now + tpc) rest then
              wfrsAux tpc timeout start fuel (now + tpc + tpc) w2 rest
            else some (true, now + tpc, rest)
          else wfrsAux tpc timeout start fuel (now + tpc) w2 rest
        else wfrsAux tpc timeout start fuel (now + tpc) w q
      | [] => wfrsAux tpc timeout start fuel (now + tpc) w q
    else some (false, now, q)

/-- `WaitForReadySignal` entered at clock `t0` with a fresh zero window. -/
def WaitForReadySignal (tpc timeout fuel t0 : Nat) (q : Chan) : Option (Bool × Nat × Chan) :=
  wfrsAux tpc timeout t0 fuel t0 initWindow q

/-- Modelled from the spec for comparison with `wfrsAux` only: the variant in
which a sentinel match followed by pending bytes clears the detection state
(the 3-byte sliding window) before scanning continues, as the spec's
ready-wait algorithm describes.  Identical to `wfrsAux` except that the
false-match branch restarts from the zero window. -/
def wfrsClearedAux (tpc timeout start : Nat) : Nat → Nat → Window → Chan → Option (Bool × Nat × Chan)
  | 0, _, _, _ => none
  | fuel + 1, now, w, q =>
    if now - start < timeout then
      match q with
      | (t, b) :: rest =>
        if t ≤ now then
          let w2 := shiftWin w b
          if sentinelMatch w2 then
            if chanAvail (now + tpc) rest then
              wfrsClearedAux tpc timeout start fuel (now + tpc + tpc) initWindow rest
            else some (true, now + tpc, rest)
          else wfrsClearedAux tpc timeout start fuel (now + tpc) w2 rest
        else wfrsClearedAux tpc timeout start fuel (now + tpc) w q
      | [] => wfrsClearedAux tpc timeout start fuel (now + tpc) w q
    else some (false, now, q)

/-- `SendCommand` (Motors.cpp lines 96-114): if unsolicited bytes are pending,
first wait (timeout `Motorboard_PrintHelpMaxTime_Ms`) for a ready signal and
fail without writing if it does not come; then write the command bytes and
wait (timeout `timeout`) for the ready signal.  The result records the
outcome, the clock at return, the unread channel, and every byte written to
the transport (empty on the leading-grace failure path). -/
def SendCommand (tpc timeout fuel t0 : Nat) (cmd : List Nat) (q : Chan) :
    Option (Bool × Nat × Chan × List Nat) :=
  if chanAvail t0 q then
    match wfrsAux tpc Motorboard_PrintHelpMaxTime_Ms t0 fuel t0 initWindow q with
    | none => none
    | some (ok, t1, q1) =>
      if ok then
        match wfrsAux tpc timeout t1 fuel t1 initWindow q1 with
        | none => none
        | some (r, t2, q2) => some (r, t2, q2, cmd)
      else some (false, t1, q1, [])
  else
    match wfrsAux tpc timeout t0 fuel t0 initWindow q with
    | none => none
    | some (r, t1, q1) => some (r, t1, q1, cmd)

/-- `DetectPing_Ms` probe loop (Motors.cpp lines 223-243): up to `n` probes of
the one-byte command, each timed; a failed probe breaks out without adding to
the accumulated time or the completed count.  Returns accumulated time,
completed count, final clock and channel. -/
def DetectPingAux (tpc fuel : Nat) : Nat → Nat → Nat → Nat → Chan → Option (Nat × Nat × Nat × Chan)
  | 0, sum, done, now, q => some (sum, done, now, q)
  | n + 1, sum, done, now, q =>
    match SendCommand tpc 5000 fuel now [32] q with
    | none => none
    | some (ok, t1, q1, _) =>
      if ok then DetectPingAux tpc fuel n (sum + (t1 - now)) (done + 1) t1 q1
      else some (sum, done, t1, q1)

/-- `DetectPing_Ms` result: `TimePassed_Ms / NumMeasurementsDone`, paired with
the divisor actually used.  Nat division by zero is 0 in Lean; in the C
source the corresponding division is unguarded. -/
def DetectPing_Ms (tpc fuel t0 : Nat) (q : Chan) (n : Nat) : Option (Nat × Nat) :=
  match DetectPingAux tpc fuel n 0 0 t0 q with
  | none => none
  | some (sum, done, _, _) => some (sum / done, done)

-- ## Hardware motors test (Motors.cpp lines 254-293)

def NumAnglesInCircle : Nat := 360
def NumCommands : Nat := 12
def AngleIncerement : Nat := NumAnglesInCircle / NumCommands
def Amplitude : Nat := 100

/-- The angle sequence of `HardwareMotorsTest`: starting from 0, clamp to
`NumAnglesInCircle`, command at that angle, stop after commanding the full
circle, otherwise step by `AngleIncerement`. -/
def TestAnglesAux : Nat → Nat → List Nat
  | 0, _ => []
  | f + 1, angle =>
    let a := if NumAnglesInCircle < angle then NumAnglesInCircle else angle
    if a = NumAnglesInCircle then [a] else a :: TestAnglesAux f (a + AngleIncerement)

def TestAngles : List Nat := TestAnglesAux 16 0

/-- The commanded power `Amplitude * sin(Angle / NumAnglesInCircle * 2 pi)`,
with the float sine modelled as the real sine (the int8 truncation on
assignment is omitted; the claims below concern sign and exact peak values). -/
noncomputable def MotorPower (angle : Nat) : ℝ :=
  (Amplitude : ℝ) * Real.sin ((angle : ℝ) / (NumAnglesInCircle : ℝ) * (2 * Real.pi))

/-- Last element of a byte list, if any. -/
def lastByte : List Nat → Option Nat
  | [] => none
  | [b] => some b
  | _ :: rest => lastByte rest

-- ## Theorems

/-- Claim C1: a moisture reading flagged as a line fault (raw value at or
outside the absolute plausible range), which `get_humidity` coerces to -1,
makes `is_low_rh` return false regardless of the filtered value and under
both polarity configurations, so a faulty sensor never starts a pour. -/
theorem c1_fail_safe (hmd : Bool) (raw filtered : Int)
    (hfault : is_line_problem raw = true) :
    is_low_rh hmd (get_humidity (is_line_problem raw) filtered) = false := by
  rw [hfault]
  simp only [get_humidity, if_pos]
  cases hmd <;> decide

/-- Witness for C1 at raw reading 700 (outside the plausible range on the
high side), filtered value 500, under both polarities. -/
theorem c1_fail_safe_w :
    is_low_rh true (get_humidity (is_line_problem 700) 500) = false ∧
    is_low_rh false (get_humidity (is_line_problem 700) 500) = false :=
  ⟨c1_fail_safe true 700 500 (by decide), c1_fail_safe false 700 500 (by decide)⟩

/-- Claim C2: entering Pouring with a known previous pour end, the new
pour duration is the previous duration times the ratio of the target cycle
duration to the observed cycle duration (truncated toward zero, as the float
product is on assignment to uint32), clamped to the motor-on ceiling. -/
theorem c2_adaptive_duration (st : PourState) (t : Nat) (hum : Int)
    (h1 : st.state = STATE_PRE_POUR_STAGING)
    (h2 : ui32_gte t st.next_state_update_time = true)
    (h3 : is_low_rh MEASURER_HIGH_MEANS_DRY hum = true)
    (h4 : st.last_motor_off_moment ≠ 0) :
    (tick st t hum).pour_duration_ms =
      min (st.pour_duration_ms * (DESIRED_POUR_CYCLE_S * 1000) /
            ((t + UINT32_MOD - st.last_motor_off_moment) % UINT32_MOD))
          (MAX_MOTOR_ON_TIME_S * 1000) := by
  simp [tick, h1, h2, h3, h4, pour_duration_update,
    STATE_IDLE, STATE_PRE_POUR_STAGING, STATE_POURING]

/-- Witness for C2 at the spec's concrete scenario: target cycle 86400000 ms,
observed cycle 43200000 ms (pour ended at 1000000, staging deadline reached at
44200000), previous duration 20000 ms: the new duration is exactly 40000 ms,
the double of the previous one, accepted unclamped under the 120000 ceiling. -/
theorem c2_adaptive_duration_w :
    (tick ⟨1, 44200000, 1000000, 20000, false⟩ 44200000 400).pour_duration_ms = 40000 ∧
    40000 = 20000 * 2 ∧ 40000 ≤ 120000 := by
  refine ⟨?_, by decide, by decide⟩
  rw [c2_adaptive_duration ⟨1, 44200000, 1000000, 20000, false⟩ 44200000 400
    (by decide) (by decide) (by decide) (by decide)]
  decide

/-- Claim C3 counterexample: schedule a deadline at time 4294966296 (1000 ms
before the uint32 counter wraps) with the configured idle duration 60000 ms;
the deadline wraps to 59000.  One millisecond later (current time 4294966297)
the forward modular elapsed time since scheduling is 1 ms, far short of the
60000 ms duration, so the deadline is still in the future; yet `ui32_gte`
already reports it as reached. -/
theorem c3_cex :
    ui32_gte 4294966297 ((4294966296 + 60000) % UINT32_MOD) = true ∧
    (4294966297 + UINT32_MOD - 4294966296) % UINT32_MOD < 60000 := by
  decide

/-- Claim C3 amended: `ui32_gte(cur, deadline)` decides deadline reached
correctly (for durations below 2^30) whenever the current time and the
deadline addition have wrapped together: part one, deadline not wrapped and
current time not wrapped; part two, deadline wrapped and current time wrapped
as well.  (When the deadline addition wraps while the current time has not
yet wrapped, the comparison fires prematurely, as the counterexample shows.) -/
theorem c3_amended (s d e a : Nat) :
    (s + d < UINT32_MOD → s ≤ a → a < UINT32_MOD → d < 1073741824 →
      (ui32_gte a (s + d) = true ↔ s + d ≤ a)) ∧
    (s < UINT32_MOD → UINT32_MOD ≤ s + d → d < 1073741824 →
      UINT32_MOD ≤ s + e → s + e < 2 * UINT32_MOD →
      (ui32_gte ((s + e) % UINT32_MOD) ((s + d) % UINT32_MOD) = true ↔ d ≤ e)) := by
  have hg : ∀ x y : Nat, ui32_gte x y = true ↔ (y ≤ x ∨ (x < y ∧ 1073741824 ≤ y - x)) := by
    intro x y
    simp [ui32_gte]
  constructor
  · intro h1 h2 h3 h4
    rw [hg]
    simp only [UINT32_MOD] at *
    omega
  · intro h1 h2 h3 h4 h5
    rw [hg]
    simp only [UINT32_MOD] at *
    omega

/-- Witness for C3 amended: an unwrapped deadline 60000 reached exactly on
time, and a wrapped deadline (scheduled at 4294966296, duration 60000)
correctly reported reached once the current time has wrapped too. -/
theorem c3_amended_w :
    (ui32_gte 60000 (0 + 60000) = true ↔ 0 + 60000 ≤ 60000) ∧
    (ui32_gte ((4294966296 + 70000) % UINT32_MOD) ((4294966296 + 60000) % UINT32_MOD) = true ↔
      60000 ≤ 70000) :=
  ⟨(c3_amended 0 60000 70000 60000).1 (by decide) (by decide) (by decide) (by decide),
   (c3_amended 4294966296 60000 70000 60000).2 (by decide) (by decide) (by decide)
     (by decide) (by decide)⟩

/-- Claim C4: the dry-persisting scenario.  In Idle, once the scheduled
deadline is reached and the reading is dry, the state becomes PreStaging with
deadline the staging duration later; in PreStaging, once its deadline is
reached and the reading is still dry, the state becomes Pouring, the motor is
turned on, and the pour end is scheduled the (possibly rescaled) pour
duration later; in Pouring, once the pour deadline is reached, the motor is
turned off, `last_motor_off_moment` is set to the current time, and the state
returns to Idle with deadline the post-pour duration later. -/
theorem c4_scenario (st : PourState) (t : Nat) (hum : Int) :
    (st.state = STATE_IDLE → ui32_gte t st.next_state_update_time = true →
      is_low_rh MEASURER_HIGH_MEANS_DRY hum = true →
      (tick st t hum).state = STATE_PRE_POUR_STAGING ∧
      (tick st t hum).next_state_update_time = (t + PRE_POUR_DURATION_S * 1000) % UINT32_MOD) ∧
    (st.state = STATE_PRE_POUR_STAGING → ui32_gte t st.next_state_update_time = true →
      is_low_rh MEASURER_HIGH_MEANS_DRY hum = true →
      (tick st t hum).state = STATE_POURING ∧
      (tick st t hum).motor_is_on = true ∧
      (tick st t hum).next_state_update_time =
        (t + (tick st t hum).pour_duration_ms) % UINT32_MOD) ∧
    (st.state = STATE_POURING → ui32_gte t st.next_state_update_time = true →
      (tick st t hum).motor_is_on = false ∧
      (tick st t hum).last_motor_off_moment = t ∧
      (tick st t hum).state = STATE_IDLE ∧
      (tick st t hum).next_state_update_time = (t + POST_POUR_DURATION_S * 1000) % UINT32_MOD) := by
  refine ⟨fun h1 h2 h3 => ?_, fun h1 h2 h3 => ?_, fun h1 h2 => ?_⟩ <;>
    simp [tick, *, STATE_IDLE, STATE_PRE_POUR_STAGING, STATE_POURING]

/-- Witness for C4: a concrete dry run through the three transitions, with
humidity reading 400 (dry under the high-means-dry configuration). -/
theorem c4_scenario_w :
    ((tick ⟨0, 0, 0, 20000, false⟩ 5 400).state = STATE_PRE_POUR_STAGING ∧
     (tick ⟨0, 0, 0, 20000, false⟩ 5 400).next_state_update_time =
       (5 + PRE_POUR_DURATION_S * 1000) % UINT32_MOD) ∧
    ((tick ⟨1, 180005, 0, 20000, false⟩ 180005 400).state = STATE_POURING ∧
     (tick ⟨1, 180005, 0, 20000, false⟩ 180005 400).motor_is_on = true ∧
     (tick ⟨1, 180005, 0, 20000, false⟩ 180005 400).next_state_update_time =
       (180005 + (tick ⟨1, 180005, 0, 20000, false⟩ 180005 400).pour_duration_ms) % UINT32_MOD) ∧
    ((tick ⟨2, 200005, 0, 20000, true⟩ 200005 400).motor_is_on = false ∧
     (tick ⟨2, 200005, 0, 20000, true⟩ 200005 400).last_motor_off_moment = 200005 ∧
     (tick ⟨2, 200005, 0, 20000, true⟩ 200005 400).state = STATE_IDLE ∧
     (tick ⟨2, 200005, 0, 20000, true⟩ 200005 400).next_state_update_time =
       (200005 + POST_POUR_DURATION_S * 1000) % UINT32_MOD) :=
  ⟨(c4_scenario ⟨0, 0, 0, 20000, false⟩ 5 400).1 (by decide) (by decide) (by decide),
   (c4_scenario ⟨1, 180005, 0, 20000, false⟩ 180005 400).2.1 (by decide) (by decide) (by decide),
   (c4_scenario ⟨2, 200005, 0, 20000, true⟩ 200005 400).2.2 (by decide) (by decide)⟩

-- ### Step lemmas for the ready-wait loop

/-- Loop guard failed: the wait returns false at the current clock. -/
theorem wfrsAux_exit (tpc timeout start fuel now : Nat) (w : Window) (q : Chan)
    (h : ¬ now - start < timeout) :
    wfrsAux tpc timeout start (fuel + 1) now w q = some (false, now, q) := by
  cases q <;> simp [wfrsAux, h]

/-- Empty channel: one polling delay. -/
theorem wfrsAux_poll (tpc timeout start fuel now : Nat) (w : Window)
    (h : now - start < timeout) :
    wfrsAux tpc timeout start (fuel + 1) now w [] =
      wfrsAux tpc timeout start fuel (now + tpc) w [] := by
  simp [wfrsAux, h]

/-- Head byte not yet arrived: one polling delay, nothing read. -/
theorem wfrsAux_late (tpc timeout start fuel now t b : Nat) (w : Window) (rest : Chan)
    (h : now - start < timeout) (hl : ¬ t ≤ now) :
    wfrsAux tpc timeout start (fuel + 1) now w ((t, b) :: rest) =
      wfrsAux tpc timeout start fuel (now + tpc) w ((t, b) :: rest) := by
  simp [wfrsAux, h, hl]

/-- Byte read, window does not match: shift and continue after one delay. -/
theorem wfrsAux_nomatch (tpc timeout start fuel now t b : Nat) (w : Window) (rest : Chan)
    (h : now - start < timeout) (ht : t ≤ now)
    (hm : sentinelMatch (shiftWin w b) = false) :
    wfrsAux tpc timeout start (fuel + 1) now w ((t, b) :: rest) =
      wfrsAux tpc timeout start fuel (now + tpc) (shiftWin w b) rest := by
  simp [wfrsAux, h, ht, hm]

/-- Byte read, window matches, but after the grace delay more bytes are
pending: the match is treated as false and scanning continues, the shifted
window kept as is. -/
theorem wfrsAux_match_busy (tpc timeout start fuel now t b : Nat) (w : Window) (rest : Chan)
    (h : now - start < timeout) (ht : t ≤ now)
    (hm : sentinelMatch (shiftWin w b) = true)
    (ha : chanAvail (now + tpc) rest = true) :
    wfrsAux tpc timeout start (fuel + 1) now w ((t, b) :: rest) =
      wfrsAux tpc timeout start fuel (now + tpc + tpc) (shiftWin w b) rest := by
  simp [wfrsAux, h, ht, hm, ha]

/-- Byte read, window matches, and the channel is silent through the grace
delay: the wait succeeds one inter-character delay after the final byte. -/
theorem wfrsAux_match_quiet (tpc timeout start fuel now t b : Nat) (w : Window) (rest : Chan)
    (h : now - start < timeout) (ht : t ≤ now)
    (hm : sentinelMatch (shiftWin w b) = true)
    (ha : chanAvail (now + tpc) rest = false) :
    wfrsAux tpc timeout start (fuel + 1) now w ((t, b) :: rest) =
      some (true, now + tpc, rest) := by
  simp [wfrsAux, h, ht, hm, ha]

/-- Claim C6 amended: if the sentinel is matched but more bytes are pending
after the one inter-character-delay grace wait, `WaitForReadySignal` does not
return success at that point: it treats the match as false and continues
scanning the stream with the 3-byte sliding window left exactly as shifted,
not cleared (the source never resets `Chars`, so the retained trailing
newline can contribute to a later match). -/
theorem c6_false_match (tpc timeout start fuel now t b : Nat) (w : Window) (rest : Chan)
    (h : now - start < timeout) (ht : t ≤ now)
    (hm : sentinelMatch (shiftWin w b) = true)
    (ha : chanAvail (now + tpc) rest = true) :
    wfrsAux tpc timeout start (fuel + 1) now w ((t, b) :: rest) =
      wfrsAux tpc timeout start fuel (now + tpc + tpc) (shiftWin w b) rest :=
  wfrsAux_match_busy tpc timeout start fuel now t b w rest h ht hm ha

/-- Witness for C6 amended: a window holding newline-G is completed to a
match by an incoming newline while one more byte is queued; the loop neither
succeeds nor resets, continuing from the shifted window two delays later. -/
theorem c6_false_match_w :
    wfrsAux 1 30 0 11 0 ⟨71, 10, 0⟩ ((0, 10) :: [(0, 65)]) =
      wfrsAux 1 30 0 10 (0 + 1 + 1) (shiftWin ⟨71, 10, 0⟩ 10) [(0, 65)] :=
  c6_false_match 1 30 0 10 0 0 10 ⟨71, 10, 0⟩ [(0, 65)]
    (by decide) (by decide) (by decide) (by decide)

/-- Claim C6 counterexample: the claim states that on a false match the
detection state (3-byte window) is cleared.  On the stream newline-G-newline-
G-newline (all queued at once), the implementation, which keeps the window,
reaches success at clock 6 by reusing the retained trailing newline, whereas
the spec-modelled variant that clears the window on the false match scans to
the timeout and fails: the two behaviours differ, so the window is not
cleared. -/
theorem c6_cex :
    wfrsAux 1 30 0 40 0 initWindow (chan0 [10, 71, 10, 71, 10]) = some (true, 6, []) ∧
    wfrsClearedAux 1 30 0 40 0 initWindow (chan0 [10, 71, 10, 71, 10]) = some (false, 30, []) := by
  constructor <;> decide

-- ### Channel and window helper lemmas

theorem chan0_cons (b : Nat) (B : List Nat) : chan0 (b :: B) = (0, b) :: chan0 B := rfl

/-- A nonempty fully-queued channel is available at any clock. -/
theorem chanAvail_chan0 (now : Nat) (B : List Nat) (h : B ≠ []) :
    chanAvail now (chan0 B) = true := by
  cases B with
  | nil => exact absurd rfl h
  | cons b B2 => simp [chan0, chanAvail]

theorem lastByte_cons2 (a c : Nat) (R : List Nat) :
    lastByte (a :: c :: R) = lastByte (c :: R) := rfl

theorem lastByte_tail (b x : Nat) (B : List Nat) (h : lastByte (b :: B) ≠ some x) :
    lastByte B ≠ some x := by
  cases B with
  | nil => simp [lastByte]
  | cons c B2 => simpa [lastByte_cons2] using h

theorem lastByte_append_pair (x y : Nat) : ∀ L : List Nat, lastByte (L ++ [x, y]) = some y := by
  intro L
  induction L with
  | nil => rfl
  | cons a L ih =>
    obtain ⟨c, R, hcr⟩ : ∃ c R, L ++ [x, y] = c :: R := by
      cases L with
      | nil => exact ⟨x, [y], rfl⟩
      | cons u U => exact ⟨u, U ++ [x, y], rfl⟩
    calc lastByte ((a :: L) ++ [x, y]) = lastByte (a :: c :: R) := by rw [List.cons_append, hcr]
      _ = lastByte (c :: R) := lastByte_cons2 a c R
      _ = lastByte (L ++ [x, y]) := by rw [hcr]
      _ = some y := ih

-- ### The ready wait consumes a fully queued stream up to its final sentinel

/-- On a channel whose bytes are all queued at once and end with the sentinel
newline-G-newline, the ready wait (given room in the timeout and the fuel)
succeeds, and only once the whole stream is consumed: matches that happen
earlier in the stream always see the pending remainder and are rejected. -/
theorem wfrs_reaches_sentinel (tpc timeout : Nat) (htpc : 1 ≤ tpc) :
    ∀ (M : List Nat) (w : Window) (e fuel : Nat),
      M.length + 3 ≤ fuel →
      e + 2 * tpc * (M.length + 3) ≤ timeout →
      ∃ e2, wfrsAux tpc timeout 0 fuel e w (chan0 (M ++ [10, 71, 10])) = some (true, e2, []) := by
  intro M
  induction M with
  | nil =>
    intro w e fuel hfuel htime
    simp only [List.length_nil] at hfuel htime
    obtain ⟨f, rfl⟩ : ∃ f, fuel = f + 3 := ⟨fuel - 3, by omega⟩
    rw [List.nil_append]
    have hch : chan0 [10, 71, 10] = (0, 10) :: (0, 71) :: (0, 10) :: [] := rfl
    rw [hch]
    have hg1 : e - 0 < timeout := by omega
    have hg2 : e + tpc - 0 < timeout := by omega
    have hg2b : e + tpc + tpc - 0 < timeout := by omega
    have hg3 : e + tpc + tpc + tpc - 0 < timeout := by omega
    by_cases hm1 : sentinelMatch (shiftWin w 10) = true
    · rw [wfrsAux_match_busy _ _ _ _ _ _ _ _ _ hg1 (Nat.zero_le e) hm1 (by simp [chanAvail])]
      rw [wfrsAux_nomatch _ _ _ _ _ _ _ _ _ hg2b (Nat.zero_le _)
        (by simp [sentinelMatch, shiftWin])]
      rw [wfrsAux_match_quiet _ _ _ _ _ _ _ _ _ hg3 (Nat.zero_le _)
        (by simp [sentinelMatch, shiftWin]) (by simp [chanAvail])]
      exact ⟨_, rfl⟩
    · have hm1f : sentinelMatch (shiftWin w 10) = false := by simpa using hm1
      rw [wfrsAux_nomatch _ _ _ _ _ _ _ _ _ hg1 (Nat.zero_le e) hm1f]
      rw [wfrsAux_nomatch _ _ _ _ _ _ _ _ _ hg2 (Nat.zero_le _)
        (by simp [sentinelMatch, shiftWin])]
      rw [wfrsAux_match_quiet _ _ _ _ _ _ _ _ _ hg2b (Nat.zero_le _)
        (by simp [sentinelMatch, shiftWin]) (by simp [chanAvail])]
      exact ⟨_, rfl⟩
  | cons m M ih =>
    intro w e fuel hfuel htime
    simp only [List.length_cons] at hfuel htime
    obtain ⟨f, rfl⟩ : ∃ f, fuel = f + 1 := ⟨fuel - 1, by omega⟩
    have hexp : 2 * tpc * (M.length + 1 + 3) = 2 * tpc * (M.length + 3) + 2 * tpc := by ring
    have hg1 : e - 0 < timeout := by
      have h1 : 2 * tpc ≤ 2 * tpc * (M.length + 1 + 3) :=
        Nat.le_mul_of_pos_right _ (by omega)
      simp only [Nat.sub_zero]
      linarith
    rw [List.cons_append, chan0_cons]
    by_cases hm : sentinelMatch (shiftWin w m) = true
    · have ha : chanAvail (e + tpc) (chan0 (M ++ [10, 71, 10])) = true :=
        chanAvail_chan0 _ _ (by simp)
      rw [wfrsAux_match_busy _ _ _ _ _ _ _ _ _ hg1 (Nat.zero_le e) hm ha]
      exact ih (shiftWin w m) (e + tpc + tpc) f (by omega) (by linarith)
    · have hmf : sentinelMatch (shiftWin w m) = false := by simpa using hm
      rw [wfrsAux_nomatch _ _ _ _ _ _ _ _ _ hg1 (Nat.zero_le e) hmf]
      exact ih (shiftWin w m) (e + tpc) f (by omega) (by linarith)

-- ### No success on a fully queued stream that does not end in a newline

/-- On a channel whose bytes are all queued at once, the ready wait can only
succeed at the very last byte of the stream, and that byte must be the
sentinel's trailing newline: success with the queue still nonempty is
impossible because the pending bytes fail the silence check. -/
theorem wfrs_no_early_success (tpc timeout : Nat) :
    ∀ (fuel : Nat) (B : List Nat) (w : Window) (e r : Nat) (q2 : Chan),
      lastByte B ≠ some 10 →
      wfrsAux tpc timeout 0 fuel e w (chan0 B) ≠ some (true, r, q2) := by
  intro fuel
  induction fuel with
  | zero =>
    intro B w e r q2 hlast h
    simp [wfrsAux] at h
  | succ f ih =>
    intro B w e r q2 hlast h
    by_cases hg : e - 0 < timeout
    · cases B with
      | nil =>
        rw [show chan0 [] = [] from rfl] at h
        rw [wfrsAux_poll _ _ _ _ _ _ hg] at h
        exact ih [] w (e + tpc) r q2 hlast h
      | cons b B2 =>
        rw [chan0_cons] at h
        by_cases hm : sentinelMatch (shiftWin w b) = true
        · by_cases ha : chanAvail (e + tpc) (chan0 B2) = true
          · rw [wfrsAux_match_busy _ _ _ _ _ _ _ _ _ hg (Nat.zero_le e) hm ha] at h
            exact ih B2 (shiftWin w b) (e + tpc + tpc) r q2 (lastByte_tail b 10 B2 hlast) h
          · have ha2 : chanAvail (e + tpc) (chan0 B2) = false := by simpa using ha
            rw [wfrsAux_match_quiet _ _ _ _ _ _ _ _ _ hg (Nat.zero_le e) hm ha2] at h
            cases B2 with
            | cons c R => simp [chan0, chanAvail] at ha2
            | nil =>
              have hmp := hm
              simp only [sentinelMatch, shiftWin, Bool.and_eq_true, decide_eq_true_eq] at hmp
              exact hlast (by rw [hmp.2]; rfl)
        · have hmf : sentinelMatch (shiftWin w b) = false := by simpa using hm
          rw [wfrsAux_nomatch _ _ _ _ _ _ _ _ _ hg (Nat.zero_le e) hmf] at h
          exact ih B2 (shiftWin w b) (e + tpc) r q2 (lastByte_tail b 10 B2 hlast) h
    · rw [wfrsAux_exit _ _ _ _ _ _ _ hg] at h
      simp at h

/-- Claim C5: for every stream of arbitrary leading bytes followed by
newline-G-newline followed by a gap with no further bytes (all bytes queued
at invocation, the gap being the end of the stream), `WaitForReadySignal`
with sufficient timeout and fuel declares success, and only after the gap:
the channel is fully consumed at the success.  (The loop returns at the first
success, so success is declared exactly once.)  And a stream whose sentinel
is partial, ending in newline-G with no trailing newline, never yields
success, whatever the leading bytes, the fuel, or the timeout. -/
theorem c5_ready_sentinel (L : List Nat) (tpc timeout fuel : Nat)
    (h1 : 1 ≤ tpc) (h2 : 2 * tpc * (L.length + 3) ≤ timeout) (h3 : L.length + 3 ≤ fuel) :
    (∃ e2, WaitForReadySignal tpc timeout fuel 0 (chan0 (L ++ [10, 71, 10])) =
      some (true, e2, [])) ∧
    (∀ fuel2 r q2, WaitForReadySignal tpc timeout fuel2 0 (chan0 (L ++ [10, 71])) ≠
      some (true, r, q2)) := by
  constructor
  · have h := wfrs_reaches_sentinel tpc timeout h1 L initWindow 0 fuel h3 (by omega)
    simpa [WaitForReadySignal] using h
  · intro fuel2 r q2
    have hlast : lastByte (L ++ [10, 71]) ≠ some 10 := by
      rw [lastByte_append_pair 10 71 L]
      simp
    exact wfrs_no_early_success tpc timeout fuel2 (L ++ [10, 71]) initWindow 0 r q2 hlast

/-- Witness for C5: leading byte 65 before the sentinel, inter-character
delay 1 ms, timeout 20 ms, fuel 10. -/
theorem c5_ready_sentinel_w :
    (∃ e2, WaitForReadySignal 1 20 10 0 (chan0 ([65] ++ [10, 71, 10])) =
      some (true, e2, [])) ∧
    (∀ fuel2 r q2, WaitForReadySignal 1 20 fuel2 0 (chan0 ([65] ++ [10, 71])) ≠
      some (true, r, q2)) :=
  c5_ready_sentinel [65] 1 20 10 (by decide) (by decide) (by decide)

-- ### Fuel adequacy and elapsed-time bound for the ready wait

/-- With a positive inter-character delay, fuel beyond the timeout is enough:
the wait never runs out of fuel, because every iteration advances the clock. -/
theorem wfrs_isSome (tpc timeout start : Nat) (htpc : 1 ≤ tpc) :
    ∀ (fuel now : Nat) (w : Window) (q : Chan),
      start ≤ now → 1 ≤ fuel → timeout + 1 ≤ fuel + (now - start) →
      wfrsAux tpc timeout start fuel now w q ≠ none := by
  intro fuel
  induction fuel with
  | zero =>
    intro now w q hsn h1 h3
    exact absurd h1 (by omega)
  | succ f ih =>
    intro now w q hsn h1 h3 h
    by_cases hg : now - start < timeout
    · have hf1 : 1 ≤ f := by omega
      cases q with
      | nil =>
        rw [wfrsAux_poll _ _ _ _ _ _ hg] at h
        exact ih (now + tpc) w [] (by omega) hf1 (by omega) h
      | cons p rest =>
        obtain ⟨t, b⟩ := p
        by_cases ht : t ≤ now
        · by_cases hm : sentinelMatch (shiftWin w b) = true
          · by_cases ha : chanAvail (now + tpc) rest = true
            · rw [wfrsAux_match_busy _ _ _ _ _ _ _ _ _ hg ht hm ha] at h
              exact ih (now + tpc + tpc) (shiftWin w b) rest (by omega) hf1 (by omega) h
            · have ha2 : chanAvail (now + tpc) rest = false := by simpa using ha
              rw [wfrsAux_match_quiet _ _ _ _ _ _ _ _ _ hg ht hm ha2] at h
              simp at h
          · have hmf : sentinelMatch (shiftWin w b) = false := by simpa using hm
            rw [wfrsAux_nomatch _ _ _ _ _ _ _ _ _ hg ht hmf] at h
            exact ih (now + tpc) (shiftWin w b) rest (by omega) hf1 (by omega) h
        · rw [wfrsAux_late _ _ _ _ _ _ _ _ _ hg ht] at h
          exact ih (now + tpc) w ((t, b) :: rest) (by omega) hf1 (by omega) h
    · rw [wfrsAux_exit _ _ _ _ _ _ _ hg] at h
      simp at h

/-- Whenever the wait returns, the clock at return is at most the start of
the wait plus the timeout plus two inter-character delays (the worst final
iteration reads a byte, matches, and pays both the grace delay and the
polling delay). -/
theorem wfrs_time_bound (tpc timeout start : Nat) :
    ∀ (fuel now : Nat) (w : Window) (q : Chan) (r : Bool) (t2 : Nat) (q2 : Chan),
      now ≤ start + timeout + 2 * tpc →
      wfrsAux tpc timeout start fuel now w q = some (r, t2, q2) →
      t2 ≤ start + timeout + 2 * tpc := by
  intro fuel
  induction fuel with
  | zero =>
    intro now w q r t2 q2 hinv h
    simp [wfrsAux] at h
  | succ f ih =>
    intro now w q r t2 q2 hinv h
    by_cases hg : now - start < timeout
    · cases q with
      | nil =>
        rw [wfrsAux_poll _ _ _ _ _ _ hg] at h
        exact ih (now + tpc) w [] r t2 q2 (by omega) h
      | cons p rest =>
        obtain ⟨t, b⟩ := p
        by_cases ht : t ≤ now
        · by_cases hm : sentinelMatch (shiftWin w b) = true
          · by_cases ha : chanAvail (now + tpc) rest = true
            · rw [wfrsAux_match_busy _ _ _ _ _ _ _ _ _ hg ht hm ha] at h
              exact ih (now + tpc + tpc) (shiftWin w b) rest r t2 q2 (by omega) h
            · have ha2 : chanAvail (now + tpc) rest = false := by simpa using ha
              rw [wfrsAux_match_quiet _ _ _ _ _ _ _ _ _ hg ht hm ha2] at h
              simp only [Option.some.injEq, Prod.mk.injEq] at h
              omega
          · have hmf : sentinelMatch (shiftWin w b) = false := by simpa using hm
            rw [wfrsAux_nomatch _ _ _ _ _ _ _ _ _ hg ht hmf] at h
            exact ih (now + tpc) (shiftWin w b) rest r t2 q2 (by omega) h
        · rw [wfrsAux_late _ _ _ _ _ _ _ _ _ hg ht] at h
          exact ih (now + tpc) w ((t, b) :: rest) r t2 q2 (by omega) h
    · rw [wfrsAux_exit _ _ _ _ _ _ _ hg] at h
      simp only [Option.some.injEq, Prod.mk.injEq] at h
      omega


-- ### Equation lemmas for SendCommand

/-- No unsolicited bytes at invocation: the command is written and the
command wait's outcome is returned. -/
theorem SendCommand_quiet_eq (tpc timeout fuel t0 : Nat) (cmd : List Nat) (q : Chan)
    (r : Bool) (t1 : Nat) (q1 : Chan)
    (hav : chanAvail t0 q = false)
    (hw : wfrsAux tpc timeout t0 fuel t0 initWindow q = some (r, t1, q1)) :
    SendCommand tpc timeout fuel t0 cmd q = some (r, t1, q1, cmd) := by
  unfold SendCommand
  rw [if_neg (by simp [hav]), hw]

/-- Unsolicited bytes at invocation and the leading grace wait fails: return
failure with nothing written. -/
theorem SendCommand_graceFail_eq (tpc timeout fuel t0 : Nat) (cmd : List Nat) (q : Chan)
    (t1 : Nat) (q1 : Chan)
    (hav : chanAvail t0 q = true)
    (hw : wfrsAux tpc Motorboard_PrintHelpMaxTime_Ms t0 fuel t0 initWindow q =
      some (false, t1, q1)) :
    SendCommand tpc timeout fuel t0 cmd q = some (false, t1, q1, []) := by
  unfold SendCommand
  rw [if_pos hav, hw]
  rfl

/-- Unsolicited bytes at invocation, the grace wait succeeds: the command is
written and the command wait's outcome is returned. -/
theorem SendCommand_graceOk_eq (tpc timeout fuel t0 : Nat) (cmd : List Nat) (q : Chan)
    (t1 : Nat) (q1 : Chan) (r : Bool) (t2 : Nat) (q2 : Chan)
    (hav : chanAvail t0 q = true)
    (hw : wfrsAux tpc Motorboard_PrintHelpMaxTime_Ms t0 fuel t0 initWindow q =
      some (true, t1, q1))
    (hw2 : wfrsAux tpc timeout t1 fuel t1 initWindow q1 = some (r, t2, q2)) :
    SendCommand tpc timeout fuel t0 cmd q = some (r, t2, q2, cmd) := by
  unfold SendCommand
  rw [if_pos hav, hw]
  simp only []
  rw [if_pos (by trivial), hw2]

-- ### Closed form for waiting on an exhausted channel with delay 1

/-- With inter-character delay 1 and an empty channel, the wait polls once
per millisecond and returns false exactly when the timeout expires. -/
theorem wfrsAux_empty_tpc1 (timeout start : Nat) :
    ∀ (fuel now : Nat) (w : Window), start ≤ now → now - start ≤ timeout →
      timeout + 1 ≤ fuel + (now - start) →
      wfrsAux 1 timeout start fuel now w [] = some (false, start + timeout, []) := by
  intro fuel
  induction fuel with
  | zero =>
    intro now w h1 h2 h3
    exact absurd h3 (by omega)
  | succ f ih =>
    intro now w h1 h2 h3
    by_cases hg : now - start < timeout
    · rw [wfrsAux_poll _ _ _ _ _ _ hg]
      exact ih (now + 1) w (by omega) (by omega) (by omega)
    · rw [wfrsAux_exit _ _ _ _ _ _ _ hg]
      have : now = start + timeout := by omega
      rw [this]

/-- The leading grace wait on the single unsolicited byte 65 at delay 1:
the byte is consumed, never a sentinel, and the wait fails at clock 4000. -/
theorem grace_wait_one_byte :
    wfrsAux 1 Motorboard_PrintHelpMaxTime_Ms 0 4001 0 initWindow [(0, 65)] =
      some (false, 4000, []) := by
  show wfrsAux 1 4000 0 4001 0 initWindow [(0, 65)] = some (false, 4000, [])
  rw [wfrsAux_nomatch _ _ _ _ _ _ _ _ _ (by omega) (by omega) (by decide)]
  exact wfrsAux_empty_tpc1 4000 0 4000 (0 + 1) _ (by omega) (by omega) (by omega)

/-- Claim C7 counterexample: one unsolicited byte (65) is pending when
`SendCommand` is invoked at clock 0 with timeout 10 and inter-character delay
1, and no ready sentinel ever appears on the channel.  `SendCommand` spends
the whole leading grace wait (`Motorboard_PrintHelpMaxTime_Ms` = 4000 ms)
before returning failure at clock 4000, far beyond the claimed bound of
timeout plus one inter-character delay (11 ms). -/
theorem c7_cex :
    SendCommand 1 10 4001 0 [32] [(0, 65)] = some (false, 4000, [], []) ∧
    10 + 1 < 4000 :=
  ⟨SendCommand_graceFail_eq 1 10 4001 0 [32] [(0, 65)] 4000 [] (by decide)
    grace_wait_one_byte, by omega⟩

/-- Claim C7 amended: in any execution in which the leading grace wait never
confirms a sentinel, `SendCommand` does return (given positive delay and fuel
beyond the larger of the grace timeout and the command timeout), and any
failure return happens no later than invocation time plus the larger of the
grace timeout (`Motorboard_PrintHelpMaxTime_Ms`) and the command timeout,
plus two inter-character delays. -/
theorem c7_timeout_bound (tpc timeout fuel t0 : Nat) (cmd : List Nat) (q : Chan)
    (h1 : 1 ≤ tpc) (h2 : 1 ≤ timeout)
    (h3 : max Motorboard_PrintHelpMaxTime_Ms timeout + 1 ≤ fuel)
    (h4 : ∀ t2 q2, wfrsAux tpc Motorboard_PrintHelpMaxTime_Ms t0 fuel t0 initWindow q ≠
      some (true, t2, q2)) :
    SendCommand tpc timeout fuel t0 cmd q ≠ none ∧
    ∀ t2 q2 wr, SendCommand tpc timeout fuel t0 cmd q = some (false, t2, q2, wr) →
      t2 ≤ t0 + max Motorboard_PrintHelpMaxTime_Ms timeout + 2 * tpc := by
  have hm4 : Motorboard_PrintHelpMaxTime_Ms = 4000 := rfl
  by_cases hav : chanAvail t0 q = true
  · rcases hw : wfrsAux tpc Motorboard_PrintHelpMaxTime_Ms t0 fuel t0 initWindow q
      with _ | ⟨ok, t1, q1⟩
    · exact absurd hw (wfrs_isSome tpc Motorboard_PrintHelpMaxTime_Ms t0 h1 fuel t0
        initWindow q le_rfl (by omega) (by omega))
    · cases ok with
      | true => exact absurd hw (h4 t1 q1)
      | false =>
        have hb := wfrs_time_bound tpc Motorboard_PrintHelpMaxTime_Ms t0 fuel t0
          initWindow q false t1 q1 (by omega) hw
        rw [SendCommand_graceFail_eq tpc timeout fuel t0 cmd q t1 q1 hav hw]
        constructor
        · simp
        · intro t2 q2 wr hx
          simp only [Option.some.injEq, Prod.mk.injEq] at hx
          omega
  · have hav2 : chanAvail t0 q = false := by simpa using hav
    rcases hw : wfrsAux tpc timeout t0 fuel t0 initWindow q with _ | ⟨r, t1, q1⟩
    · exact absurd hw (wfrs_isSome tpc timeout t0 h1 fuel t0 initWindow q le_rfl
        (by omega) (by omega))
    · have hb := wfrs_time_bound tpc timeout t0 fuel t0 initWindow q r t1 q1 (by omega) hw
      rw [SendCommand_quiet_eq tpc timeout fuel t0 cmd q r t1 q1 hav2 hw]
      constructor
      · simp
      · intro t2 q2 wr hx
        simp only [Option.some.injEq, Prod.mk.injEq] at hx
        omega

/-- Witness for C7 amended: empty channel, timeout 1 ms, delay 1 ms, fuel
4001: the command wait times out and the return obeys the amended bound. -/
theorem c7_timeout_bound_w :
    SendCommand 1 1 4001 0 [32] [] ≠ none ∧
    ∀ t2 q2 wr, SendCommand 1 1 4001 0 [32] [] = some (false, t2, q2, wr) →
      t2 ≤ 0 + max Motorboard_PrintHelpMaxTime_Ms 1 + 2 * 1 :=
  c7_timeout_bound 1 1 4001 0 [32] [] (by decide) (by decide) (by decide)
    (by
      intro t2 q2 h
      rw [wfrsAux_empty_tpc1 Motorboard_PrintHelpMaxTime_Ms 0 4001 0 initWindow
        (by omega) (by omega) (by decide)] at h
      simp at h)

/-- Claim C10: with unsolicited bytes pending at invocation and the ready
sentinel never confirmed within the leading grace wait, `SendCommand` returns
failure with no byte of the command written to the transport: the recorded
write list is empty, so the channel's outgoing state is unchanged on this
error path. -/
theorem c10_no_write_on_desync (tpc timeout fuel t0 : Nat) (cmd : List Nat) (q : Chan)
    (t1 : Nat) (q1 : Chan)
    (h1 : chanAvail t0 q = true)
    (h2 : wfrsAux tpc Motorboard_PrintHelpMaxTime_Ms t0 fuel t0 initWindow q =
      some (false, t1, q1)) :
    SendCommand tpc timeout fuel t0 cmd q = some (false, t1, q1, []) :=
  SendCommand_graceFail_eq tpc timeout fuel t0 cmd q t1 q1 h1 h2

/-- Witness for C10: one pending byte 65 and never a sentinel: the grace wait
fails at clock 4000 and nothing is written. -/
theorem c10_no_write_on_desync_w :
    SendCommand 1 77 4001 0 [32] [(0, 65)] = some (false, 4000, [], []) :=
  c10_no_write_on_desync 1 77 4001 0 [32] [(0, 65)] 4000 [] (by decide)
    grace_wait_one_byte

/-- A failed probe breaks the measurement loop without touching the
accumulated time or the completed count. -/
theorem DetectPingAux_fail (tpc fuel n sum done now : Nat) (q : Chan)
    (t1 : Nat) (q1 : Chan) (wr : List Nat)
    (h : SendCommand tpc 5000 fuel now [32] q = some (false, t1, q1, wr)) :
    DetectPingAux tpc fuel (n + 1) sum done now q = some (sum, done, t1, q1) := by
  simp [DetectPingAux, h]

/-- Claim C8: on a silent peer (no byte ever arrives) the very first probe of
`DetectPing_Ms` times out, the loop exits with accumulated time 0 and zero
completed probes, and the final division `TimePassed_Ms / NumMeasurementsDone`
is 0 / 0: in the C source that division is unguarded (undefined behaviour);
the Nat model returns 0 only because Lean defines division by zero to be 0. -/
theorem c8_unguarded_div :
    DetectPingAux 1 5001 5 0 0 0 [] = some (0, 0, 5000, []) ∧
    DetectPing_Ms 1 5001 0 [] 5 = some (0, 0) := by
  have hsc : SendCommand 1 5000 5001 0 [32] [] = some (false, 5000, [], [32]) :=
    SendCommand_quiet_eq 1 5000 5001 0 [32] [] false 5000 [] (by decide)
      (wfrsAux_empty_tpc1 5000 0 5001 0 initWindow (by omega) (by omega) (by omega))
  have h1 : DetectPingAux 1 5001 (4 + 1) 0 0 0 [] = some (0, 0, 5000, []) :=
    DetectPingAux_fail 1 5001 4 0 0 0 [] 5000 [] [32] hsc
  exact ⟨h1, by simp [DetectPing_Ms, h1]⟩

/-- Claim C9 counterexample: the self test's angle sequence contains 210
degrees (beyond the claimed 0..180 half period), and the commanded power
there, amplitude times the sine of the angle, is negative (the real value is
-50), refuting both the half-period range and the non-negativity of every
commanded power. -/
theorem c9_cex : 210 ∈ TestAngles ∧ MotorPower 210 < 0 := by
  constructor
  · decide
  · unfold MotorPower
    have harg : ((210 : ℕ) : ℝ) / ((NumAnglesInCircle : ℕ) : ℝ) * (2 * Real.pi) =
        Real.pi / 6 + Real.pi := by
      simp only [NumAnglesInCircle]
      push_cast
      ring
    rw [harg, Real.sin_add, Real.sin_pi, Real.cos_pi, Real.sin_pi_div_six]
    norm_num [Amplitude]

/-- Claim C9 amended: the self test traces one full sine period, not a half
period: the angle steps in fixed 30 degree increments from 0 to 360, the
commanded power is amplitude times the sine of the angle, reaching the full
positive amplitude 100 at 90 degrees, the full negative amplitude -100 at 270
degrees, and 0 at the final angle 360. -/
theorem c9_full_sine_sweep :
    TestAngles = [0, 30, 60, 90, 120, 150, 180, 210, 240, 270, 300, 330, 360] ∧
    MotorPower 90 = 100 ∧ MotorPower 270 = -100 ∧ MotorPower 360 = 0 := by
  refine ⟨by decide, ?_, ?_, ?_⟩
  · unfold MotorPower
    have harg : ((90 : ℕ) : ℝ) / ((NumAnglesInCircle : ℕ) : ℝ) * (2 * Real.pi) =
        Real.pi / 2 := by
      simp only [NumAnglesInCircle]
      push_cast
      ring
    rw [harg, Real.sin_pi_div_two]
    norm_num [Amplitude]
  · unfold MotorPower
    have harg : ((270 : ℕ) : ℝ) / ((NumAnglesInCircle : ℕ) : ℝ) * (2 * Real.pi) =
        Real.pi / 2 + Real.pi := by
      simp only [NumAnglesInCircle]
      push_cast
      ring
    rw [harg, Real.sin_add, Real.sin_pi, Real.cos_pi, Real.sin_pi_div_two]
    norm_num [Amplitude]
  · unfold MotorPower
    have harg : ((360 : ℕ) : ℝ) / ((NumAnglesInCircle : ℕ) : ℝ) * (2 * Real.pi) =
        2 * Real.pi := by
      simp only [NumAnglesInCircle]
      push_cast
      ring
    rw [harg, Real.sin_two_pi]
    norm_num
